import Mathlib

/-
Verification of ophyd `controls/areadetector/base.py` (danielballan/ophyd).

The file shallowly embeds the signal-registry and lazy-binding machinery of
`base.py`: the `Signal`/`SignalRW` descriptors together with `SignalMeta`,
`Base` and `SettableBase`; the `ADSignal` descriptor, `ADSignalGroup` and
`ADBase`; and the documentation resolver `lookup_doc`.  Python object
identity is modelled with an explicit allocation counter: every constructed
channel or group carries the counter value current at its construction, so
two handles are "the identical object" exactly when their allocation ids
coincide.  The external channel client (`epics.PV`) is represented by
environments `conn : String → Bool` (connection state by pv name) and
`vals : String → Int` (current values by pv name); exceptions are modelled
with `Except`.
-/

namespace Ophyd

/-- Python `str.lower` on a single character (ASCII fold, which covers the pv
names appearing in this module). -/
def lowerChar (c : Char) : Char :=
  if 'A' ≤ c ∧ c ≤ 'Z' then Char.ofNat (c.toNat + 32) else c

/-- Whether `sub` occurs as a contiguous segment of the second list; used for
the Python substring test `sub in s`. -/
def containsSeg (sub : List Char) : List Char → Bool
  | [] => sub.isEmpty
  | c :: rest => sub.isPrefixOf (c :: rest) || containsSeg sub rest

/-- Python substring containment `sub in s`. -/
def strContains (s sub : String) : Bool :=
  containsSeg sub.data s.data

/-- Worker for `strReplace`: scans the subject list, emitting the replacement
at each (left-most, non-overlapping) occurrence of `sub`.  The `Nat` argument
counts characters still to skip after a match was consumed. -/
def replaceGo (sub rep : List Char) : Nat → List Char → List Char
  | _, [] => []
  | skip + 1, _ :: rest => replaceGo sub rep skip rest
  | 0, c :: rest =>
    if sub.isPrefixOf (c :: rest) then rep ++ replaceGo sub rep (sub.length - 1) rest
    else c :: replaceGo sub rep 0 rest

/-- Replace every occurrence of `sub` in `s` by `rep`; models Python
`str.format` substitution of one named placeholder (`format` substitutes each
occurrence of the field and never rescans the substituted text). -/
def strReplace (s sub rep : String) : String :=
  if sub.data.isEmpty then s else String.mk (replaceGo sub.data rep.data 0 s.data)

/-- Python `str.lower`. -/
def strToLower (s : String) : String :=
  String.mk (s.data.map lowerChar)

/-- Python `str.rstrip(":")`. -/
def rstripColon (s : String) : String :=
  String.mk ((s.data.reverse.dropWhile (fun c => c == ':')).reverse)

/-- Python `str.replace(":", ".")`. -/
def colonToDot (s : String) : String :=
  String.mk (s.data.map (fun c => if c == ':' then '.' else c))

/-- Python `str.endswith`. -/
def strEndsWith (s suffixStr : String) : Bool :=
  suffixStr.data.isSuffixOf s.data

/-- Python slicing `s[:-n]` (drop the last `n` characters). -/
def strDropRight (s : String) (n : Nat) : String :=
  String.mk (s.data.take (s.data.length - n))

/-- First-match lookup in an association list with string keys: Python
`d[k]` / `k in d` for the dictionaries of this module (insertion order,
at most one entry per key in every reachable state). -/
def lookupStr {β : Type} (l : List (String × β)) (k : String) : Option β :=
  match l with
  | [] => none
  | (k1, v) :: rest => if k1 = k then some v else lookupStr rest k

/-- `Signal` descriptor (base.py 72-91): one read-only pv, declared with a pv
name template.  `writable` marks the `SignalRW` subclass (base.py 94-96),
whose `_class` is the writable `EpicsSignalLiteRW`. -/
structure Signal where
  pv_template : String
  writable : Bool
deriving DecidableEq, Repr

/-- `Signal.__init__` (base.py 76-81): rejects a template that does not
contain the `{base_name}` placeholder (ValueError), otherwise stores the
template. -/
def Signal.init (pv_template : String) (writable : Bool) : Except String Signal :=
  if strContains pv_template "{base_name}" then Except.ok { pv_template, writable }
  else Except.error "pv_template must contain the base_name placeholder"

/-- Python dict assignment `d[k] = v` as executed while a class body runs: an
existing key keeps its position and takes the new value, a new key is
appended. -/
def clsdictInsert {β : Type} (d : List (String × β)) (k : String) (v : β) : List (String × β) :=
  if (lookupStr d k).isSome then d.map (fun p => if p.1 = k then (k, v) else p)
  else d ++ [(k, v)]

/-- Sequential execution of a class body's assignments into the class
namespace dict; a descriptor constructor that raises aborts the class
definition. -/
def evalBodyAux (acc : List (String × Signal)) :
    List (String × Except String Signal) → Except String (List (String × Signal))
  | [] => Except.ok acc
  | (k, mk) :: rest =>
    match mk with
    | Except.error e => Except.error e
    | Except.ok s => evalBodyAux (clsdictInsert acc k s) rest

/-- Evaluate a class body (a sequence of `name = Signal(...)` assignments)
into the namespace dict handed to the metaclass. -/
def evalBody (body : List (String × Except String Signal)) :
    Except String (List (String × Signal)) :=
  evalBodyAux [] body

/-- The per-class metadata `SignalMeta.__new__` attaches (base.py 99-116):
templates, the signal dict, the name list, and the writable subset in
declaration order used to synthesize the default `set` signature. -/
structure SchemaClass where
  templates : List (String × String)
  signals : List (String × Signal)
  signal_names : List String
  writable_signals : List String
deriving DecidableEq, Repr

/-- `SignalMeta.__new__` (base.py 101-116) applied to the finished class
namespace dict.  Note base.py 115 also creates the channel dict `_pvs = {}`
as an attribute of the class object itself; that dict is `ClassState` below,
created empty at class-definition time (see `classDefPvs`). -/
def signalMetaNew (clsdict : List (String × Signal)) : SchemaClass :=
  { templates := clsdict.map (fun p => (p.1, p.2.pv_template))
  , signals := clsdict
  , signal_names := clsdict.map (fun p => p.1)
  , writable_signals := (clsdict.filter (fun p => p.2.writable)).map (fun p => p.1) }

/-- Full class definition: run the body, then the metaclass. -/
def classNew (body : List (String × Except String Signal)) : Except String SchemaClass :=
  (evalBody body).map signalMetaNew

/-- A constructed `EpicsSignalLite` / `EpicsSignalLiteRW` channel handle
(base.py 29-69).  `cid` is the allocation id standing for Python object
identity.  A writable channel wraps pv `pv_name` and the readback pv
`pv_name ++ ".RBV"` (base.py 54). -/
structure Channel where
  cid : Nat
  pv_name : String
  writable : Bool
deriving DecidableEq, Repr

/-- The readback pv of an `EpicsSignalLiteRW` (base.py 54). -/
def Channel.readback_pv (ch : Channel) : String :=
  ch.pv_name ++ ".RBV"

/-- `connected` (base.py 37-39 and 56-58): an RW channel needs both its pvs
connected. -/
def Channel.connectedB (ch : Channel) (conn : String → Bool) : Bool :=
  if ch.writable then conn ch.pv_name && conn ch.readback_pv else conn ch.pv_name

/-- `get` under the `raise_if_disconnected` decorator (base.py 15-26, 41-44,
60-63): an RW channel reads its readback pv; a disconnected channel raises
`DisconnectedError` whose message names `self.pv.pvname`. -/
def Channel.getVal (ch : Channel) (conn : String → Bool) (vals : String → Int) :
    Except String Int :=
  if ch.connectedB conn then
    Except.ok (vals (if ch.writable then ch.readback_pv else ch.pv_name))
  else Except.error (ch.pv_name ++ " is not connected")

/-- The object returned by `epics.PV.put` via `EpicsSignalLiteRW.put`,
recording the dispatched write. -/
structure WriteHandle where
  pv_name : String
  value : Int
deriving DecidableEq, Repr

/-- `put` (base.py 65-69): only `EpicsSignalLiteRW` defines it (a read-only
channel raises AttributeError); `raise_if_disconnected` applies; the write
goes to the base pv. -/
def Channel.putVal (ch : Channel) (conn : String → Bool) (v : Int) :
    Except String WriteHandle :=
  if !ch.writable then Except.error "AttributeError: put"
  else if ch.connectedB conn then Except.ok { pv_name := ch.pv_name, value := v }
  else Except.error (ch.pv_name ++ " is not connected")

/-- The class attribute `_pvs` (base.py 115): a dict living on the class
object, mapping resolved pv names to constructed channels.  `instance._pvs`
reads fall through to this class attribute, and
`instance._pvs[pv_name] = ...` mutates it in place, so all instances of one
schema class share it. -/
structure ClassState where
  pvs : List (String × Channel)
deriving DecidableEq, Repr

/-- The `_pvs` dict as `SignalMeta.__new__` creates it: empty, at
class-definition time, before any instance exists. -/
def classDefPvs : ClassState :=
  { pvs := [] }

/-- A `Base` instance (base.py 119-137).  `read_fields = none` models the
attribute being absent: `__init__` (base.py 126-129) assigns
`self.read_fields` only when the argument is `None`; there is no else branch.
No channel cache lives here — `_pvs` is class state (see `ClassState`). -/
structure BaseInst where
  base_name : String
  read_fields : Option (List String)
deriving DecidableEq, Repr

/-- `Base.__init__` (base.py 126-129). -/
def Base.init (cls : SchemaClass) (base_name : String)
    (read_fieldsArg : Option (List String)) : BaseInst :=
  { base_name
  , read_fields := match read_fieldsArg with
      | none => some cls.signal_names
      | some _ => none }

/-- `self.pv_template.format(base_name=instance.base_name)` (base.py 86). -/
def Signal.resolvePv (sig : Signal) (inst : BaseInst) : String :=
  strReplace sig.pv_template "{base_name}" inst.base_name

/-- `Signal.__get__` on an instance (base.py 86-91): resolve the pv name; on
a miss in the class-level `_pvs`, construct a fresh channel (allocation id
`ctr`) and store it; return the cached entry. -/
def Signal.get (sig : Signal) (inst : BaseInst) (st : ClassState) (ctr : Nat) :
    Channel × ClassState × Nat :=
  let pv := sig.resolvePv inst
  match lookupStr st.pvs pv with
  | some ch => (ch, st, ctr)
  | none =>
    let ch : Channel := { cid := ctr, pv_name := pv, writable := sig.writable }
    (ch, { pvs := st.pvs ++ [(pv, ch)] }, ctr + 1)

/-- `Signal.__get__` including the class-access branch (base.py 83-85):
`instance is None` returns `None` without touching cache or counter. -/
def Signal.getattr (sig : Signal) (inst : Option BaseInst) (st : ClassState) (ctr : Nat) :
    Option Channel × ClassState × Nat :=
  match inst with
  | none => (none, st, ctr)
  | some i =>
    let r := sig.get i st ctr
    (some r.1, r.2.1, r.2.2)

/-- The dict comprehension of `Base.read` (base.py 131-133), evaluated left
to right: `getattr(self, name)` triggers `Signal.__get__`, then `.get()` runs
on the channel; the first raised exception aborts the comprehension (no
partial mapping is produced). -/
def readFields (cls : SchemaClass) (inst : BaseInst) (conn : String → Bool)
    (vals : String → Int) :
    List String → ClassState → Nat →
      Except String (List (String × Int)) × ClassState × Nat
  | [], st, ctr => (Except.ok [], st, ctr)
  | n :: rest, st, ctr =>
    match lookupStr cls.signals n with
    | none => (Except.error ("AttributeError: " ++ n), st, ctr)
    | some sig =>
      let r := sig.get inst st ctr
      match r.1.getVal conn vals with
      | Except.error e => (Except.error e, r.2.1, r.2.2)
      | Except.ok v =>
        match readFields cls inst conn vals rest r.2.1 r.2.2 with
        | (Except.ok m, st2, c2) => (Except.ok ((n, v) :: m), st2, c2)
        | other => other

/-- `Base.read` (base.py 131-133).  Reading `self.read_fields` raises
AttributeError when the attribute was never assigned (see `Base.init`). -/
def Base.read (cls : SchemaClass) (inst : BaseInst) (st : ClassState) (ctr : Nat)
    (conn : String → Bool) (vals : String → Int) :
    Except String (List (String × Int)) × ClassState × Nat :=
  match inst.read_fields with
  | none => (Except.error "AttributeError: read_fields", st, ctr)
  | some fields => readFields cls inst conn vals fields st ctr

/-- The dict comprehension of `Base.describe` (base.py 135-137): the
`source` metadata is `getattr(self, name).pv.pvname`, the channel's base pv
name; no connection is required. -/
def describeFields (cls : SchemaClass) (inst : BaseInst) :
    List String → ClassState → Nat →
      Except String (List (String × String)) × ClassState × Nat
  | [], st, ctr => (Except.ok [], st, ctr)
  | n :: rest, st, ctr =>
    match lookupStr cls.signals n with
    | none => (Except.error ("AttributeError: " ++ n), st, ctr)
    | some sig =>
      let r := sig.get inst st ctr
      match describeFields cls inst rest r.2.1 r.2.2 with
      | (Except.ok m, st2, c2) => (Except.ok ((n, r.1.pv_name) :: m), st2, c2)
      | other => other

/-- `Base.describe` (base.py 135-137). -/
def Base.describe (cls : SchemaClass) (inst : BaseInst) (st : ClassState) (ctr : Nat) :
    Except String (List (String × String)) × ClassState × Nat :=
  match inst.read_fields with
  | none => (Except.error "AttributeError: read_fields", st, ctr)
  | some fields => describeFields cls inst fields st ctr

/-- Keyword phase of `inspect.Signature.bind`: each parameter not bound
positionally must appear in `kwargs`; bound values come out in parameter
order. -/
def bindRest (params : List String) (kwargs : List (String × Int)) :
    Except String (List (String × Int)) :=
  match params with
  | [] => Except.ok []
  | p :: ps =>
    match kwargs.find? (fun q => q.1 == p) with
    | none => Except.error ("missing a required argument: " ++ p)
    | some q =>
      match bindRest ps kwargs with
      | Except.error e => Except.error e
      | Except.ok r => Except.ok ((p, q.2) :: r)

/-- `inspect.Signature.bind` specialised to the signatures built by
`SignalMeta` (base.py 111-112): every parameter POSITIONAL_OR_KEYWORD with no
default.  Positional arguments fill parameters in order; a parameter bound
both ways, a missing parameter, or an unknown keyword raise TypeError; the
resulting `arguments` mapping lists pairs in parameter (declaration) order. -/
def bindArgs (params : List String) (args : List Int) (kwargs : List (String × Int)) :
    Except String (List (String × Int)) :=
  if params.length < args.length then Except.error "too many positional arguments"
  else if (params.take args.length).any (fun p => (kwargs.find? (fun q => q.1 == p)).isSome)
    then Except.error "multiple values for argument"
  else
    match bindRest (params.drop args.length) kwargs with
    | Except.error e => Except.error e
    | Except.ok rest =>
      if kwargs.any (fun q => !(params.any (fun p => p == q.1)))
        then Except.error "got an unexpected keyword argument"
      else Except.ok (params.zip args ++ rest)

/-- The loop of `SettableBase.set` (base.py 160-165): for each bound
(name, value) in order, `getattr(self, name)` resolves the channel and
`sig.put(val)` dispatches the write; handles are collected in order; a raised
exception aborts the loop. -/
def setFold (cls : SchemaClass) (inst : BaseInst) (conn : String → Bool) :
    List (String × Int) → ClassState → Nat →
      Except String (List WriteHandle) × ClassState × Nat
  | [], st, ctr => (Except.ok [], st, ctr)
  | (n, v) :: rest, st, ctr =>
    match lookupStr cls.signals n with
    | none => (Except.error ("AttributeError: " ++ n), st, ctr)
    | some sig =>
      let r := sig.get inst st ctr
      match r.1.putVal conn v with
      | Except.error e => (Except.error e, r.2.1, r.2.2)
      | Except.ok h =>
        match setFold cls inst conn rest r.2.1 r.2.2 with
        | (Except.ok hs, st2, c2) => (Except.ok (h :: hs), st2, c2)
        | other => other

/-- `SettableBase.set` (base.py 158-165): bind arguments against the
synthesized writable-field signature; a binding failure raises before any
channel is touched (cache and counter unchanged); otherwise dispatch one
write per bound field. -/
def SettableBase.set (cls : SchemaClass) (inst : BaseInst) (st : ClassState) (ctr : Nat)
    (conn : String → Bool) (args : List Int) (kwargs : List (String × Int)) :
    Except String (List WriteHandle) × ClassState × Nat :=
  match bindArgs cls.writable_signals args kwargs with
  | Except.error e => (Except.error e, st, ctr)
  | Except.ok bound => setFold cls inst conn bound st ctr

/-- The `Motor` class body (base.py 168-174), including its duplicated
`val` declaration, as the ordered sequence of assignments the class
namespace executes. -/
def motorBody : List (String × Except String Signal) :=
  [ ("val", Signal.init "{base_name}.VAL" true)
  , ("val", Signal.init "{base_name}.VAL" true)
  , ("egu", Signal.init "{base_name}.EGU" true)
  , ("movn", Signal.init "{base_name}.MOVN" true)
  , ("dmov", Signal.init "{base_name}.DMOV" true)
  , ("stop", Signal.init "{base_name}.STOP" true) ]

/-- `name_from_pv` (base.py 178-182): lower-case, strip trailing colons, turn
colons into dots. -/
def name_from_pv (pv : String) : String :=
  colonToDot (rstripColon (strToLower pv))

/-- `ADSignal` descriptor (base.py 222-326): a lazy property declared with a
pv suffix template, an optional separate readback pv, and an optional
docstring.  `descDoc` is the `__doc__` set by `__init__` (base.py 278). -/
structure ADSignal where
  pv : String
  has_rbv : Bool
  doc : Option String
  descDoc : String
deriving DecidableEq, Repr

/-- `ADSignal.__init__` (base.py 272-278).  It performs no validation of the
pv template: construction always succeeds. -/
def ADSignal.init (pv : String) (has_rbv : Bool) (doc : Option String) : ADSignal :=
  { pv, has_rbv, doc, descDoc := "[Lazy property for " ++ pv ++ "]" }

/-- Modelled from the spec: `EpicsSignal` (imported as `oesig` from
`ophyd.controls.signal`, base.py 8, a module of this repository that is not
under src/).  Per the spec's Channel Client capability and the `describe`
contract, a channel handle exposes its resolved read-channel identifier as
`pvname`, carries the optional write pv and display name it was constructed
with, and has Python object identity, modelled by the allocation id `sid`. -/
structure EpicsSig where
  sid : Nat
  pvname : String
  write_pv : Option String
  sname : String
  docStr : String
deriving DecidableEq, Repr

/-- Modelled from the spec: `SignalGroup` (imported as `osiggrp` from
`ophyd.controls.signal`, not under src/).  Per spec §4.4 a group aggregates
its member channels, added in order; `gid` is its allocation id (object
identity), `members` the allocation ids of the member signals in add order. -/
structure SigGroup where
  gid : Nat
  members : List Nat
deriving DecidableEq, Repr

/-- A key of the per-instance dict `_ad_signals`: `ADSignal.check_exists`
stores under the formatted pv string (base.py 311), `ADSignalGroup` under the
tuple of member pv names (base.py 331). -/
inductive ADKey : Type
  | str (s : String)
  | tup (l : List String)
deriving DecidableEq, Repr

/-- A value of `_ad_signals`: an `EpicsSignal` or a `SignalGroup`. -/
inductive ADObj : Type
  | sig (s : EpicsSig)
  | grp (g : SigGroup)
deriving DecidableEq, Repr

/-- The allocation id (object identity) of a cached object. -/
def ADObj.idOf : ADObj → Nat
  | ADObj.sig s => s.sid
  | ADObj.grp g => g.gid

/-- First-match lookup in `_ad_signals`. -/
def lookupKey (l : List (ADKey × ADObj)) (k : ADKey) : Option ADObj :=
  match l with
  | [] => none
  | (k1, v) :: rest => if k1 = k then some v else lookupKey rest k

/-- An `ADBase` instance (base.py 353-472).  `chanCtx` is the
instance-supplied context an `ADSignal` template may interpolate — the
`self.channel` of the docstring example (base.py 253-259), added by a
subclass `__init__`; `ad_signals` is the per-instance dict `_ad_signals`. -/
structure ADInstance where
  name : String
  aliasName : String
  prefixVal : String
  chanCtx : String
  ad_signals : List (ADKey × ADObj)
deriving DecidableEq, Repr

/-- `ADBase.__init__` (base.py 456-464): display name defaults to
`name_from_pv(prefix)`, alias to the string "None"; the per-instance
`_ad_signals` dict starts empty. -/
def ADBase.init (prefixArg : String) (nameArg : Option String)
    (aliasArg : Option String) (chanCtx : String) : ADInstance :=
  { name := nameArg.getD (name_from_pv prefixArg)
  , aliasName := aliasArg.getD "None"
  , prefixVal := prefixArg
  , chanCtx
  , ad_signals := [] }

/-- `self.pv.format(self=obj)` (base.py 293): interpolate the instance
context into the suffix template. -/
def ADSignal.resolve (sig : ADSignal) (obj : ADInstance) : String :=
  strReplace sig.pv "{self.channel}" obj.chanCtx

/-- `ADSignal.check_exists` on an instance (base.py 293-318): format the
suffix, return the cached signal on a hit in `_ad_signals`; on a KeyError
construct the `EpicsSignal` — read pv `prefix + pv` (plus `_RBV` when
`has_rbv`), write pv `prefix + pv` only when `has_rbv`, name
`obj.name + "." + name_from_pv(pv)`, docstring `doc` or the descriptor's —
store it under the formatted pv, and return the stored entry.  String keys
only ever hold signals, so a cached group under a string key cannot occur;
the wildcard branch below therefore coincides with the KeyError branch. -/
def ADSignal.check_exists (sig : ADSignal) (obj : ADInstance) (ctr : Nat) :
    EpicsSig × ADInstance × Nat :=
  let pv := sig.resolve obj
  match lookupKey obj.ad_signals (ADKey.str pv) with
  | some (ADObj.sig s) => (s, obj, ctr)
  | _ =>
    let full_name := obj.name ++ "." ++ name_from_pv pv
    let basePv := obj.prefixVal ++ pv
    let read_ := if sig.has_rbv then basePv ++ "_RBV" else basePv
    let write : Option String := if sig.has_rbv then some basePv else none
    let s : EpicsSig :=
      { sid := ctr, pvname := read_, write_pv := write, sname := full_name
      , docStr := match sig.doc with | some d => d | none => sig.descDoc }
    (s, { obj with ad_signals := obj.ad_signals ++ [(ADKey.str pv, ADObj.sig s)] }, ctr + 1)

/-- The result of attribute access through an `ADSignal` descriptor. -/
inductive ADAccess : Type
  | descObj (d : ADSignal)
  | sigObj (s : EpicsSig)
deriving DecidableEq, Repr

/-- `ADSignal.__get__` (base.py 320-321) via `check_exists` (base.py
287-291): class access (`obj is None`) returns the descriptor itself and
touches neither cache nor counter. -/
def ADSignal.getattr (sig : ADSignal) (obj : Option ADInstance) (ctr : Nat) :
    ADAccess × Option ADInstance × Nat :=
  match obj with
  | none => (ADAccess.descObj sig, none, ctr)
  | some o =>
    let r := sig.check_exists o ctr
    (ADAccess.sigObj r.1, some r.2.1, r.2.2)

/-- `tuple(prop.__get__(self) for prop in props)` (base.py 330): resolve each
member descriptor in order, threading the instance cache and the allocation
counter. -/
def resolveProps (props : List ADSignal) (obj : ADInstance) (ctr : Nat) :
    List EpicsSig × ADInstance × Nat :=
  match props with
  | [] => ([], obj, ctr)
  | p :: rest =>
    let r := p.check_exists obj ctr
    let rs := resolveProps rest r.2.1 r.2.2
    (r.1 :: rs.1, rs.2.1, rs.2.2)

/-- The member-identifier tuple a group access would compute from a given
state: the pv names of the resolved member signals (base.py 330-331). -/
def accessKey (props : List ADSignal) (obj : ADInstance) (ctr : Nat) : List String :=
  (resolveProps props obj ctr).1.map (fun s => s.pvname)

/-- The `check_exists` closure of `ADSignalGroup` (base.py 328-340): resolve
all member descriptors, key by the tuple of their pv names, return the cached
group on a hit; otherwise build a `SignalGroup`, add the members in order,
store it under the key and return the stored entry.  Tuple keys only ever
hold groups, so the wildcard branch coincides with the KeyError branch. -/
def ADSignalGroup.access (props : List ADSignal) (obj : ADInstance) (ctr : Nat) :
    SigGroup × ADInstance × Nat :=
  let r := resolveProps props obj ctr
  let key := r.1.map (fun s => s.pvname)
  match lookupKey r.2.1.ad_signals (ADKey.tup key) with
  | some (ADObj.grp g) => (g, r.2.1, r.2.2)
  | _ =>
    let g : SigGroup := { gid := r.2.2, members := r.1.map (fun s => s.sid) }
    (g, { r.2.1 with ad_signals := r.2.1.ad_signals ++ [(ADKey.tup key, ADObj.grp g)] },
     r.2.2 + 1)

/-- An entry of the mro walked by `lookup_doc`: a class either exposes a
`_html_docs` list or raises AttributeError (`none`). -/
structure DocClass where
  html_docs : Option (List String)
deriving DecidableEq, Repr

/-- The bundled tables `docs.docs`: file name → (pv suffix → doc string). -/
def DocTables : Type := List (String × List (String × String))

/-- One table probe (base.py 208-217): exact pv match first, then, when the
pv ends with `_RBV`, the suffix-stripped pv. -/
def tryTable (doc : List (String × String)) (pv : String) : Option String :=
  match lookupStr doc pv with
  | some d => some d
  | none =>
    if strEndsWith pv "_RBV" then lookupStr doc (strDropRight pv 4) else none

/-- The inner loop of `lookup_doc` over one class's `_html_docs` file list
(base.py 202-217): a file absent from `docs.docs` is skipped. -/
def tryFiles (docs : DocTables) (files : List String) (pv : String) : Option String :=
  match files with
  | [] => none
  | fn :: rest =>
    match lookupStr docs fn with
    | none => tryFiles docs rest pv
    | some doc =>
      match tryTable doc pv with
      | some d => some d
      | none => tryFiles docs rest pv

/-- `lookup_doc` (base.py 185-219): walk the mro most-derived first, skip
classes without `_html_docs`, return the first hit, else the sentinel
string.  A pure function of its arguments. -/
def lookup_doc (classes : List DocClass) (docs : DocTables) (pv : String) : String :=
  match classes with
  | [] => "No documentation found [PV suffix=" ++ pv ++ "]"
  | c :: rest =>
    match c.html_docs with
    | none => lookup_doc rest docs pv
    | some files =>
      match tryFiles docs files pv with
      | some d => d
      | none => lookup_doc rest docs pv

/-- The claim's wording of the documentation walk: the flat ordered list of
per-table hits — each referenced table of each ancestor in mro order
contributes its exact-name entry, or failing that (for a `_RBV` name) its
suffix-stripped entry. -/
def specCandidates (classes : List DocClass) (docs : DocTables) (pv : String) :
    List String :=
  ((classes.filterMap (fun c => c.html_docs)).flatten).filterMap
    (fun fn => (lookupStr docs fn).bind (fun doc => tryTable doc pv))

/-- The claim's wording of `lookup`: the first hit across the whole walk,
else a fixed not-found sentinel containing the searched name. -/
def specLookup (classes : List DocClass) (docs : DocTables) (pv : String) : String :=
  match (specCandidates classes docs pv).head? with
  | some d => d
  | none => "No documentation found [PV suffix=" ++ pv ++ "]"

/-- The descriptor variants a field can be declared with. -/
inductive DescVariant : Type
  | readOnly
  | readWrite
  | adSignal
deriving DecidableEq, Repr

/-- A constructed field descriptor of either family. -/
inductive FieldDescriptor : Type
  | sig (s : Signal)
  | adsig (a : ADSignal)
deriving DecidableEq, Repr

/-- Field-descriptor construction from a template, by variant:
`Signal`/`SignalRW` run the template check of base.py 76-78; `ADSignal`
(base.py 272-278) constructs unconditionally. -/
def mkDescriptor : DescVariant → String → Except String FieldDescriptor
  | DescVariant.readOnly, t => (Signal.init t false).map FieldDescriptor.sig
  | DescVariant.readWrite, t => (Signal.init t true).map FieldDescriptor.sig
  | DescVariant.adSignal, t => Except.ok (FieldDescriptor.adsig (ADSignal.init t false none))

/-- Well-formedness of the class-level `_pvs` dict: every cached channel is
stored under its own pv name (true of every state `Signal.__get__` can
produce, line 89 stores the channel under the pv name it was built from). -/
def chanWF (st : ClassState) : Bool :=
  st.pvs.all (fun p => p.2.pv_name == p.1)

/-- A field whose channel is fully connected under environment `conn`: the
field exists and both its base pv and its readback pv report connected (so
the channel is connected whichever of the two channel classes wraps it). -/
def fieldConnOk (cls : SchemaClass) (inst : BaseInst) (conn : String → Bool)
    (n : String) : Bool :=
  match lookupStr cls.signals n with
  | none => false
  | some sg => conn (sg.resolvePv inst) && conn (sg.resolvePv inst ++ ".RBV")

/-- Key/value typing of one `_ad_signals` entry: string keys hold signals
(stored by `ADSignal.check_exists`), tuple keys hold groups (stored by
`ADSignalGroup`). -/
def keyObjOk : ADKey × ADObj → Bool
  | (ADKey.str _, ADObj.sig _) => true
  | (ADKey.tup _, ADObj.grp _) => true
  | _ => false

/-- Whether an `_ad_signals` key is a (formatted-pv) string key. -/
def isStrKeyB : ADKey → Bool
  | ADKey.str _ => true
  | ADKey.tup _ => false

/-- Well-formedness of `_ad_signals`: every entry respects `keyObjOk`; every
state the code can produce satisfies it. -/
def adWF (obj : ADInstance) : Bool :=
  obj.ad_signals.all keyObjOk

/-- All allocation ids in `_ad_signals` lie below the allocation counter:
holds of every reachable state, since objects receive the counter value
current at their construction. -/
def cacheBoundB (obj : ADInstance) (c : Nat) : Bool :=
  obj.ad_signals.all (fun p => p.2.idOf < c)

/-- Changing the instance context an `ADSignal` template interpolates (the
`self.channel` of the base.py 253-259 example): the one instance attribute a
member identifier can resolve differently through. -/
def chgCtx (obj : ADInstance) (ctx : String) : ADInstance :=
  { obj with chanCtx := ctx }

/-- A concrete writable field, `val = SignalRW('{base_name}.VAL')`. -/
def demoVal : Signal :=
  { pv_template := "{base_name}.VAL", writable := true }

/-- A concrete writable field, `egu = SignalRW('{base_name}.EGU')`. -/
def demoEgu : Signal :=
  { pv_template := "{base_name}.EGU", writable := true }

/-- A concrete two-field schema class built by the metaclass. -/
def demoCls : SchemaClass :=
  signalMetaNew [("val", demoVal), ("egu", demoEgu)]

/-- A `demoCls` instance for base name "m1". -/
def demoInst : BaseInst :=
  Base.init demoCls "m1" none

/-- A second `demoCls` instance, constructed by its own separate
`Base.__init__` call for the same base name. -/
def demoInst2 : BaseInst :=
  Base.init demoCls "m1" none

/-- A concrete `ADSignal` whose suffix template interpolates instance
context, as in the base.py 253-259 docstring example. -/
def demoAdCh : ADSignal :=
  ADSignal.init "Ch{self.channel}" false none

/-- A concrete `ADSignal` with a separate readback pv. -/
def demoAdEnable : ADSignal :=
  ADSignal.init "enable" true none

/-- A concrete fresh `ADBase` instance with context "3". -/
def demoAdObj : ADInstance :=
  ADBase.init "my_prefix:" none none "3"

/-- A third concrete writable field, `movn = SignalRW('{base_name}.MOVN')`. -/
def demoMovn : Signal :=
  { pv_template := "{base_name}.MOVN", writable := true }

/-- A concrete schema class with three writable fields in declaration
order. -/
def demoCls3 : SchemaClass :=
  signalMetaNew [("val", demoVal), ("egu", demoEgu), ("movn", demoMovn)]

/-- A `demoCls3` instance for base name "m1". -/
def demoInst3 : BaseInst :=
  Base.init demoCls3 "m1" none

/-- A concrete mro for the documentation walk: a derived class with a doc
file, an intermediate class without `_html_docs`, and a base class with the
bundled areaDetector file. -/
def demoDocClasses : List DocClass :=
  [{ html_docs := some ["ndArray.html"] }, { html_docs := none },
   { html_docs := some ["areaDetectorDoc.html"] }]

/-- Concrete bundled documentation tables: only the base class's file is
present, holding the un-suffixed entry. -/
def demoDocTables : DocTables :=
  [("areaDetectorDoc.html", [("ArrayCounter", "counter doc")])]

/-- Lookup distributes over list append, trying the left part first. -/
theorem lookupStr_append {β : Type} (l l' : List (String × β)) (k : String) :
    lookupStr (l ++ l') k
      = match lookupStr l k with
        | some v => some v
        | none => lookupStr l' k := by
  induction l with
  | nil => simp [lookupStr]
  | cons hd tl ih =>
    obtain ⟨k1, v⟩ := hd
    by_cases h : k1 = k
    · simp [lookupStr, h]
    · simp [lookupStr, h, ih]

/-- Overwriting an existing key in place changes exactly that key's value. -/
theorem lookupStr_map_overwrite {β : Type} (d : List (String × β)) (k : String) (v : β) :
    lookupStr (d.map (fun p => if p.1 = k then (k, v) else p)) k
      = if (lookupStr d k).isSome then some v else none := by
  induction d with
  | nil => simp [lookupStr]
  | cons hd tl ih =>
    obtain ⟨k1, w⟩ := hd
    rw [List.map_cons]
    show lookupStr ((if k1 = k then (k, v) else (k1, w))
          :: List.map (fun p => if p.1 = k then (k, v) else p) tl) k
        = if (lookupStr ((k1, w) :: tl) k).isSome = true then some v else none
    by_cases h : k1 = k
    · subst h
      rw [if_pos rfl]
      simp [lookupStr]
    · rw [if_neg h]
      simp [lookupStr, h, ih]

/-- Python dict assignment semantics: after `d[k] = v`, `d[k]` is `v`. -/
theorem lookupStr_clsdictInsert {β : Type} (d : List (String × β)) (k : String) (v : β) :
    lookupStr (clsdictInsert d k v) k = some v := by
  unfold clsdictInsert
  by_cases h : (lookupStr d k).isSome
  · simp [h, lookupStr_map_overwrite]
  · have hnone : lookupStr d k = none := by
      cases hx : lookupStr d k
      · rfl
      · rw [hx] at h; simp at h
    rw [if_neg h, lookupStr_append, hnone]
    simp [lookupStr]

/-- `lookupKey` distributes over append, trying the left part first. -/
theorem lookupKey_append (l l' : List (ADKey × ADObj)) (k : ADKey) :
    lookupKey (l ++ l') k
      = match lookupKey l k with
        | some v => some v
        | none => lookupKey l' k := by
  induction l with
  | nil => simp [lookupKey]
  | cons hd tl ih =>
    obtain ⟨k1, v⟩ := hd
    by_cases h : k1 = k
    · simp [lookupKey, h]
    · simp [lookupKey, h, ih]

/-- A successful lookup in a list all of whose entries satisfy `P` yields an
entry satisfying `P`. -/
theorem lookupKey_all_of_some {P : ADKey × ADObj → Bool} (l : List (ADKey × ADObj))
    (hall : l.all P = true) (k : ADKey) (v : ADObj) (h : lookupKey l k = some v) :
    P (k, v) = true := by
  induction l with
  | nil => simp [lookupKey] at h
  | cons hd tl ih =>
    obtain ⟨k1, w⟩ := hd
    simp only [List.all_cons, Bool.and_eq_true] at hall
    by_cases hk : k1 = k
    · subst hk
      simp [lookupKey] at h
      subst h
      exact hall.1
    · simp only [lookupKey, hk, if_false] at h
      exact ih hall.2 h

/-- C10: accessing a declared field on the schema class itself (no instance
bound) never constructs a channel and never touches any cache: a
Signal/SignalRW descriptor accessed on the class returns None, an ADSignal
descriptor returns the descriptor object itself; cache and allocation
counter are unchanged in both cases. -/
theorem class_access_returns_none_or_descriptor (sig : Signal) (st : ClassState)
    (ctr : Nat) (asig : ADSignal) (actr : Nat) :
    Signal.getattr sig none st ctr = (none, st, ctr)
    ∧ ADSignal.getattr asig none actr = (ADAccess.descObj asig, none, actr) :=
  ⟨rfl, rfl⟩

/-- C2 (code bug witness): the Signal-family channel dict `_pvs` is class
state: it exists (empty) at class-definition time before any instance, and
after a first instance's access to `val` it is non-empty, so a second,
separately constructed instance of the same class finds the first instance's
channel already cached — its own first access returns the object the first
instance allocated (same allocation id), constructing nothing. -/
theorem shared_class_cache_across_instances :
    classDefPvs.pvs = []
    ∧ (Signal.get demoVal demoInst classDefPvs 0).2.1.pvs ≠ []
    ∧ (Signal.get demoVal demoInst classDefPvs 0).1.cid = 0
    ∧ Signal.get demoVal demoInst2
        (Signal.get demoVal demoInst classDefPvs 0).2.1
        (Signal.get demoVal demoInst classDefPvs 0).2.2
      = ((Signal.get demoVal demoInst classDefPvs 0).1,
          (Signal.get demoVal demoInst classDefPvs 0).2.1,
          (Signal.get demoVal demoInst classDefPvs 0).2.2) := by
  refine ⟨rfl, ?_, rfl, by decide⟩
  decide

/-- C5 (counterexample): `ADSignal('ArrayCounter')` — exactly the declaration
`NDArrayDriver.array_counter` makes (base.py 478) — has no substitution
placeholder in its template and is nevertheless constructed successfully: a
descriptor object is produced and no error is raised. -/
theorem adsignal_no_template_validation_cx :
    strContains "ArrayCounter" "{base_name}" = false
    ∧ mkDescriptor DescVariant.adSignal "ArrayCounter"
        = Except.ok (FieldDescriptor.adsig (ADSignal.init "ArrayCounter" false none)) :=
  ⟨by decide, rfl⟩

/-- C5 (amended): construction of a Signal or SignalRW descriptor succeeds
exactly when its template contains the `{base_name}` placeholder (otherwise
it fails with ValueError and no descriptor is produced), while ADSignal
descriptors perform no template validation and always construct. -/
theorem template_validation_by_variant (t : String) :
    (mkDescriptor DescVariant.readOnly t).isOk = strContains t "{base_name}"
    ∧ (mkDescriptor DescVariant.readWrite t).isOk = strContains t "{base_name}"
    ∧ (mkDescriptor DescVariant.adSignal t).isOk = true := by
  refine ⟨?_, ?_, rfl⟩ <;>
    · simp only [mkDescriptor, Signal.init]
      by_cases h : strContains t "{base_name}" = true
      · simp [h, Except.map, Except.isOk, Except.toBool]
      · simp only [Bool.not_eq_true] at h
        simp [h, Except.map, Except.isOk, Except.toBool]

/-- C6 (code bug witness): `Base.__init__` assigns `self.read_fields` only
when the argument is None, so the default selects all declared signal
fields; with an explicit subset the attribute is never assigned and both
`read` and `describe` fail with AttributeError instead of iterating over the
requested subset. -/
theorem read_fields_dropped_when_explicit (cls : SchemaClass) (b : String)
    (l : List String) (st : ClassState) (ctr : Nat) (conn : String → Bool)
    (vals : String → Int) :
    (Base.init cls b none).read_fields = some cls.signal_names
    ∧ (Base.init cls b (some l)).read_fields = none
    ∧ Base.read cls (Base.init cls b (some l)) st ctr conn vals
        = (Except.error "AttributeError: read_fields", st, ctr)
    ∧ Base.describe cls (Base.init cls b (some l)) st ctr
        = (Except.error "AttributeError: read_fields", st, ctr) :=
  ⟨rfl, rfl, rfl, rfl⟩

/-- C9 (counterexample): the `Motor` class body declares `val` twice
(base.py 169-170); its definition completes without any error — the
metaclass receives the deduplicated namespace and registers five fields,
`val` carrying the later declaration's template — so no configuration error
is surfaced at class-definition time. -/
theorem motor_duplicate_field_completes_cx :
    (classNew motorBody).map (fun c => c.signal_names)
      = Except.ok ["val", "egu", "movn", "dmov", "stop"]
    ∧ (classNew motorBody).map (fun c => lookupStr c.templates "val")
      = Except.ok (some "{base_name}.VAL") := by
  constructor <;> rfl

/-- C9 (amended): a field name declared twice in one class body is not
detected: the class definition completes silently and the later declaration
wins under ordinary dict-assignment semantics (the earlier binding is
overwritten in place), as `Motor`'s duplicated `val` shows. -/
theorem duplicate_field_later_wins (d : List (String × Signal)) (k : String)
    (v1 v2 : Signal) :
    lookupStr (clsdictInsert (clsdictInsert d k v1) k v2) k = some v2
    ∧ (classNew motorBody).isOk = true :=
  ⟨lookupStr_clsdictInsert _ _ _, by decide⟩

/-- Appending a fresh key makes it found. -/
theorem lookupStr_append_singleton {β : Type} (l : List (String × β)) (k : String)
    (v : β) (h : lookupStr l k = none) : lookupStr (l ++ [(k, v)]) k = some v := by
  rw [lookupStr_append, h]
  simp [lookupStr]

/-- Appending a fresh key makes it found (`_ad_signals` version). -/
theorem lookupKey_append_singleton (l : List (ADKey × ADObj)) (k : ADKey) (v : ADObj)
    (h : lookupKey l k = none) : lookupKey (l ++ [(k, v)]) k = some v := by
  rw [lookupKey_append, h]
  simp [lookupKey]

/-- C1: for every instance and declared field, repeated access yields the
identical cached channel: a Signal field's second access returns exactly the
first access's channel with cache and allocation counter unchanged; the
first access's channel is stored in the cache under the resolved pv; when
the pv was not yet cached the first access constructed it fresh (allocation
id `ctr`, identifier the resolved pv) and advanced the counter; and likewise
an ADSignal field's second `check_exists` returns the first result with no
change of cache or counter. -/
theorem signal_repeated_access_identity (sig : Signal) (inst : BaseInst)
    (st : ClassState) (ctr : Nat) (asig : ADSignal) (obj : ADInstance) (actr : Nat)
    (hwf : adWF obj = true) :
    Signal.get sig inst (Signal.get sig inst st ctr).2.1 (Signal.get sig inst st ctr).2.2
      = Signal.get sig inst st ctr
    ∧ lookupStr (Signal.get sig inst st ctr).2.1.pvs (sig.resolvePv inst)
      = some (Signal.get sig inst st ctr).1
    ∧ (lookupStr st.pvs (sig.resolvePv inst) = none →
        (Signal.get sig inst st ctr).1
          = { cid := ctr, pv_name := sig.resolvePv inst, writable := sig.writable }
        ∧ (Signal.get sig inst st ctr).2.2 = ctr + 1)
    ∧ ADSignal.check_exists asig (ADSignal.check_exists asig obj actr).2.1
        (ADSignal.check_exists asig obj actr).2.2
      = ADSignal.check_exists asig obj actr := by
  refine ⟨?_, ?_, ?_, ?_⟩
  · cases h : lookupStr st.pvs (sig.resolvePv inst) with
    | some ch => simp [Signal.get, h]
    | none =>
      simp only [Signal.get, h]
      rw [lookupStr_append_singleton _ _ _ h]
  · cases h : lookupStr st.pvs (sig.resolvePv inst) with
    | some ch => simp [Signal.get, h]
    | none =>
      simp only [Signal.get, h]
      rw [lookupStr_append_singleton _ _ _ h]
  · intro h
    simp [Signal.get, h]
  · cases h : lookupKey obj.ad_signals (ADKey.str (asig.resolve obj)) with
    | some o =>
      cases o with
      | sig s => simp [ADSignal.check_exists, h]
      | grp g =>
        have hko := lookupKey_all_of_some obj.ad_signals hwf _ _ h
        simp [keyObjOk] at hko
    | none =>
      simp only [ADSignal.check_exists, h]
      have hres : asig.resolve
          { obj with ad_signals := obj.ad_signals
              ++ [(ADKey.str (asig.resolve obj), ADObj.sig
                    { sid := actr
                    , pvname := if asig.has_rbv then obj.prefixVal ++ asig.resolve obj ++ "_RBV"
                        else obj.prefixVal ++ asig.resolve obj
                    , write_pv := if asig.has_rbv then some (obj.prefixVal ++ asig.resolve obj) else none
                    , sname := obj.name ++ "." ++ name_from_pv (asig.resolve obj)
                    , docStr := match asig.doc with | some d => d | none => asig.descDoc })] }
          = asig.resolve obj := rfl
      rw [hres, lookupKey_append_singleton _ _ _ h]

/-- Witness for C1 at a concrete fresh class state and fresh AD instance. -/
theorem signal_repeated_access_identity_witness :
    adWF demoAdObj = true
    ∧ lookupStr classDefPvs.pvs (demoVal.resolvePv demoInst) = none
    ∧ ((Signal.get demoVal demoInst classDefPvs 0).1
          = { cid := 0, pv_name := demoVal.resolvePv demoInst, writable := demoVal.writable }
        ∧ (Signal.get demoVal demoInst classDefPvs 0).2.2 = 0 + 1) := by
  refine ⟨by decide, by decide, ?_⟩
  exact (signal_repeated_access_identity demoVal demoInst classDefPvs 0
    demoAdCh demoAdObj 0 (by decide)).2.2.1 (by decide)

/-- A successful string-keyed lookup in a list all of whose entries satisfy
`P` yields an entry satisfying `P`. -/
theorem lookupStr_all_of_some {β : Type} {P : String × β → Bool} (l : List (String × β))
    (hall : l.all P = true) (k : String) (v : β) (h : lookupStr l k = some v) :
    P (k, v) = true := by
  induction l with
  | nil => simp [lookupStr] at h
  | cons hd tl ih =>
    obtain ⟨k1, w⟩ := hd
    simp only [List.all_cons, Bool.and_eq_true] at hall
    by_cases hk : k1 = k
    · subst hk
      simp [lookupStr] at h
      subst h
      exact hall.1
    · simp only [lookupStr, hk, if_false] at h
      exact ih hall.2 h

/-- On a well-formed cache, `Signal.__get__` returns a channel whose pv name
is the resolved identifier, and leaves the cache well-formed. -/
theorem signal_get_pv (sig : Signal) (inst : BaseInst) (st : ClassState) (ctr : Nat)
    (hwf : chanWF st = true) :
    (Signal.get sig inst st ctr).1.pv_name = sig.resolvePv inst
    ∧ chanWF (Signal.get sig inst st ctr).2.1 = true := by
  cases h : lookupStr st.pvs (sig.resolvePv inst) with
  | some ch =>
    have hentry := lookupStr_all_of_some st.pvs hwf _ _ h
    simp only [beq_iff_eq] at hentry
    simp [Signal.get, h, hentry, hwf]
  | none =>
    simp [Signal.get, h, chanWF, List.all_append, chanWF] at hwf ⊢
    exact hwf

/-- On a well-formed cache with all of `pre` connected and `bad`'s channel
disconnected, the `read` comprehension over `pre ++ bad :: post` raises
`DisconnectedError` naming `bad`'s resolved pv. -/
theorem readFields_disconnected_err (cls : SchemaClass) (inst : BaseInst)
    (conn : String → Bool) (vals : String → Int) (bad : String) (sigbad : Signal)
    (post : List String) (hbad : lookupStr cls.signals bad = some sigbad)
    (hdis : conn (sigbad.resolvePv inst) = false) :
    ∀ (pre : List String) (st : ClassState) (ctr : Nat), chanWF st = true →
      pre.all (fieldConnOk cls inst conn) = true →
      (readFields cls inst conn vals (pre ++ bad :: post) st ctr).1
        = Except.error (sigbad.resolvePv inst ++ " is not connected") := by
  intro pre
  induction pre with
  | nil =>
    intro st ctr hwf _
    have hpv := (signal_get_pv sigbad inst st ctr hwf).1
    have hcn : (Signal.get sigbad inst st ctr).1.connectedB conn = false := by
      cases hw : (Signal.get sigbad inst st ctr).1.writable <;>
        simp [Channel.connectedB, Channel.readback_pv, hpv, hdis, hw]
    simp [readFields, hbad, Channel.getVal, hcn, hpv]
  | cons n pre' ih =>
    intro st ctr hwf hpre
    simp only [List.all_cons, Bool.and_eq_true] at hpre
    obtain ⟨hn1, hpre'⟩ := hpre
    cases hn : lookupStr cls.signals n with
    | none => simp [fieldConnOk, hn] at hn1
    | some sg =>
      simp only [fieldConnOk, hn, Bool.and_eq_true] at hn1
      have hsp := signal_get_pv sg inst st ctr hwf
      have hcn : (Signal.get sg inst st ctr).1.connectedB conn = true := by
        cases hw : (Signal.get sg inst st ctr).1.writable <;>
          simp [Channel.connectedB, Channel.readback_pv, hsp.1, hn1.1, hn1.2, hw]
      have ihr := ih (Signal.get sg inst st ctr).2.1 (Signal.get sg inst st ctr).2.2
        hsp.2 hpre'
      simp only [List.cons_append, readFields, hn, Channel.getVal, hcn, if_true]
      cases hr : readFields cls inst conn vals (pre' ++ bad :: post)
          (Signal.get sg inst st ctr).2.1 (Signal.get sg inst st ctr).2.2 with
      | mk res rest =>
        rw [hr] at ihr
        cases res with
        | ok m => simp at ihr
        | error e =>
          simp only at ihr
          simp [ihr]

/-- C4: when exactly one of the selected fields' channels is disconnected
(all fields before it and after it fully connected), `read()` fails with a
DisconnectedError whose message names that channel's resolved pv name — not
the field name and not any other field's identifier — and returns no partial
mapping. -/
theorem read_disconnected_names_pvname (cls : SchemaClass) (inst : BaseInst)
    (pre post : List String) (bad : String) (sigbad : Signal)
    (st : ClassState) (ctr : Nat) (conn : String → Bool) (vals : String → Int)
    (hrf : inst.read_fields = some (pre ++ bad :: post))
    (hwf : chanWF st = true)
    (hpre : pre.all (fieldConnOk cls inst conn) = true)
    (hbad : lookupStr cls.signals bad = some sigbad)
    (hdis : conn (sigbad.resolvePv inst) = false)
    (_hpost : post.all (fieldConnOk cls inst conn) = true) :
    (Base.read cls inst st ctr conn vals).1
      = Except.error (sigbad.resolvePv inst ++ " is not connected") := by
  simp only [Base.read, hrf]
  exact readFields_disconnected_err cls inst conn vals bad sigbad post hbad hdis
    pre st ctr hwf hpre

/-- Witness for C4: a two-field instance whose `egu` channel is down. -/
theorem read_disconnected_names_pvname_witness :
    (fun s => !(s == "m1.EGU")) (demoEgu.resolvePv demoInst) = false
    ∧ (Base.read demoCls demoInst classDefPvs 0
        (fun s => !(s == "m1.EGU")) (fun _ => 7)).1
      = Except.error (demoEgu.resolvePv demoInst ++ " is not connected") := by
  refine ⟨by decide, ?_⟩
  exact read_disconnected_names_pvname demoCls demoInst ["val"] [] "egu" demoEgu
    classDefPvs 0 (fun s => !(s == "m1.EGU")) (fun _ => 7)
    (by decide) (by decide) (by decide) (by decide) (by decide) (by decide)

/-- C3: for a schema whose writable fields are `[a, b, c]` in declaration
order, `set(v1, v2, v3)` and `set(a=v1, b=v2, c=v3)` produce the identical
result — the same per-field write dispatches in the same order, the same
final cache and counter — with the bound per-field pairs being exactly
`[(a, v1), (b, v2), (c, v3)]`, one per field; and `set(v1, v2)` fails at
argument binding naming the missing parameter, before any channel is
accessed or written (cache and counter unchanged, no handles produced). -/
theorem set_positional_keyword_equivalence (cls : SchemaClass) (inst : BaseInst)
    (st : ClassState) (ctr : Nat) (conn : String → Bool) (a b c : String)
    (v1 v2 v3 : Int) (hw : cls.writable_signals = [a, b, c])
    (hab : a ≠ b) (hac : a ≠ c) (hbc : b ≠ c) :
    SettableBase.set cls inst st ctr conn [v1, v2, v3] []
      = SettableBase.set cls inst st ctr conn [] [(a, v1), (b, v2), (c, v3)]
    ∧ bindArgs [a, b, c] [v1, v2, v3] [] = Except.ok [(a, v1), (b, v2), (c, v3)]
    ∧ SettableBase.set cls inst st ctr conn [v1, v2] []
      = (Except.error ("missing a required argument: " ++ c), st, ctr) := by
  have h1 : bindArgs [a, b, c] [v1, v2, v3] [] = Except.ok [(a, v1), (b, v2), (c, v3)] := by
    simp [bindArgs, bindRest, List.find?]
  have nab : (a == b) = false := beq_eq_false_iff_ne.mpr hab
  have nac : (a == c) = false := beq_eq_false_iff_ne.mpr hac
  have nbc : (b == c) = false := beq_eq_false_iff_ne.mpr hbc
  have h2 : bindArgs [a, b, c] [] [(a, v1), (b, v2), (c, v3)]
      = Except.ok [(a, v1), (b, v2), (c, v3)] := by
    simp [bindArgs, bindRest, List.find?, nab, nac, nbc,
      beq_eq_false_iff_ne.mpr (Ne.symm hab), beq_eq_false_iff_ne.mpr (Ne.symm hac),
      beq_eq_false_iff_ne.mpr (Ne.symm hbc)]
  have h3 : bindArgs [a, b, c] [v1, v2] []
      = Except.error ("missing a required argument: " ++ c) := by
    simp [bindArgs, bindRest, List.find?]
  refine ⟨?_, h1, ?_⟩
  · simp only [SettableBase.set, hw, h1, h2]
  · simp only [SettableBase.set, hw, h3]

/-- Witness for C3 at a concrete three-writable-field schema. -/
theorem set_positional_keyword_equivalence_witness :
    demoCls3.writable_signals = ["val", "egu", "movn"]
    ∧ (SettableBase.set demoCls3 demoInst3 classDefPvs 0 (fun _ => true) [1, 2, 3] []
        = SettableBase.set demoCls3 demoInst3 classDefPvs 0 (fun _ => true) []
            [("val", 1), ("egu", 2), ("movn", 3)]
      ∧ bindArgs ["val", "egu", "movn"] [1, 2, 3] []
        = Except.ok [("val", 1), ("egu", 2), ("movn", 3)]
      ∧ SettableBase.set demoCls3 demoInst3 classDefPvs 0 (fun _ => true) [1, 2] []
        = (Except.error ("missing a required argument: " ++ "movn"), classDefPvs, 0)) := by
  refine ⟨by decide, ?_⟩
  exact set_positional_keyword_equivalence demoCls3 demoInst3 classDefPvs 0
    (fun _ => true) "val" "egu" "movn" 1 2 3 (by decide) (by decide) (by decide)
    (by decide)

/-- The per-file try loop returns the first hit among the per-file hit
list. -/
theorem tryFiles_eq_head (docs : DocTables) (pv : String) :
    ∀ files : List String,
      tryFiles docs files pv
        = (files.filterMap
            (fun fn => (lookupStr docs fn).bind (fun doc => tryTable doc pv))).head? := by
  intro files
  induction files with
  | nil => rfl
  | cons fn rest ih =>
    cases h : lookupStr docs fn with
    | none => simp [tryFiles, h, List.filterMap_cons, ih]
    | some doc =>
      cases ht : tryTable doc pv with
      | none => simp [tryFiles, h, ht, List.filterMap_cons, ih]
      | some dd => simp [tryFiles, h, ht, List.filterMap_cons]

/-- C8: `lookup_doc` computes exactly the claim's description of the walk —
the first hit in mro order, where each ancestor's referenced tables
contribute an exact match or, for a name with the `_RBV` readback suffix,
the suffix-stripped match; a table holding only the un-suffixed name yields
that entry for the suffixed query; and when no ancestor table yields either
form the result is the fixed not-found sentinel, which contains the searched
name.  The function is a pure function of its arguments (deterministic, no
side effects). -/
theorem lookup_doc_refines_spec (classes : List DocClass) (docs : DocTables)
    (pv : String) (doc : List (String × String)) (d : String) :
    lookup_doc classes docs pv = specLookup classes docs pv
    ∧ (strEndsWith pv "_RBV" = true → lookupStr doc pv = none →
        lookupStr doc (strDropRight pv 4) = some d → tryTable doc pv = some d)
    ∧ (specCandidates classes docs pv = [] →
        ∃ l r, lookup_doc classes docs pv = l ++ pv ++ r) := by
  have heq : lookup_doc classes docs pv = specLookup classes docs pv := by
    induction classes with
    | nil => rfl
    | cons c rest ih =>
      cases hc : c.html_docs with
      | none =>
        have hsc : specCandidates (c :: rest) docs pv = specCandidates rest docs pv := by
          simp [specCandidates, List.filterMap_cons, hc]
        simp only [lookup_doc, hc, specLookup, hsc]
        exact ih
      | some files =>
        have hsc : specCandidates (c :: rest) docs pv
            = (files.filterMap
                (fun fn => (lookupStr docs fn).bind (fun doc => tryTable doc pv)))
              ++ specCandidates rest docs pv := by
          simp [specCandidates, List.filterMap_cons, hc, List.filterMap_append]
        simp only [lookup_doc, hc]
        rw [tryFiles_eq_head]
        cases hfc : files.filterMap
            (fun fn => (lookupStr docs fn).bind (fun doc => tryTable doc pv)) with
        | nil =>
          simp only [List.head?_nil]
          rw [ih]
          simp [specLookup, hsc, hfc]
        | cons dd ds => simp [specLookup, hsc, hfc]
  refine ⟨heq, ?_, ?_⟩
  · intro h1 h2 h3
    simp [tryTable, h1, h2, h3]
  · intro hnil
    refine ⟨"No documentation found [PV suffix=", "]", ?_⟩
    rw [heq]
    simp [specLookup, hnil]

/-- Witness for C8: the sentinel case at a name no table holds, and the
readback-suffix fallback at a table holding only the un-suffixed name. -/
theorem lookup_doc_refines_spec_witness :
    (specCandidates demoDocClasses demoDocTables "Nope" = []
      ∧ ∃ l r, lookup_doc demoDocClasses demoDocTables "Nope" = l ++ "Nope" ++ r)
    ∧ tryTable [("ArrayCounter", "counter doc")] "ArrayCounter_RBV"
        = some "counter doc" := by
  refine ⟨⟨by decide, ?_⟩, ?_⟩
  · exact (lookup_doc_refines_spec demoDocClasses demoDocTables "Nope" [] "x").2.2
      (by decide)
  · exact (lookup_doc_refines_spec demoDocClasses demoDocTables "ArrayCounter_RBV"
      [("ArrayCounter", "counter doc")] "counter doc").2.1 (by decide) (by decide)
      (by decide)

/-- A tail holding only string-keyed signal entries never answers a
tuple-key lookup. -/
theorem lookupKey_tup_of_str_all (tail : List (ADKey × ADObj)) (k : List String)
    (h : tail.all (fun p => keyObjOk p && isStrKeyB p.1) = true) :
    lookupKey tail (ADKey.tup k) = none := by
  induction tail with
  | nil => rfl
  | cons hd tl ih =>
    obtain ⟨key, v⟩ := hd
    simp only [List.all_cons, Bool.and_eq_true] at h
    cases key with
    | str s => simp only [lookupKey]; rw [if_neg (by simp)]; exact ih h.2
    | tup l => simp [isStrKeyB] at h

/-- The instance context fields survive `check_exists` (it only touches
`_ad_signals`). -/
theorem check_exists_ctx (sig : ADSignal) (obj : ADInstance) (ctr : Nat) :
    (sig.check_exists obj ctr).2.1.chanCtx = obj.chanCtx
    ∧ (sig.check_exists obj ctr).2.1.name = obj.name
    ∧ (sig.check_exists obj ctr).2.1.prefixVal = obj.prefixVal := by
  simp only [ADSignal.check_exists]
  cases hk : lookupKey obj.ad_signals (ADKey.str (sig.resolve obj)) with
  | none => exact ⟨rfl, rfl, rfl⟩
  | some o =>
    cases o with
    | sig s => exact ⟨rfl, rfl, rfl⟩
    | grp g => exact ⟨rfl, rfl, rfl⟩

/-- `check_exists` only appends to `_ad_signals`, and appends only
string-keyed signal entries. -/
theorem check_exists_extends (sig : ADSignal) (obj : ADInstance) (ctr : Nat) :
    ∃ tail, (sig.check_exists obj ctr).2.1.ad_signals = obj.ad_signals ++ tail
      ∧ tail.all (fun p => keyObjOk p && isStrKeyB p.1) = true := by
  simp only [ADSignal.check_exists]
  cases hk : lookupKey obj.ad_signals (ADKey.str (sig.resolve obj)) with
  | none => exact ⟨_, rfl, by simp [keyObjOk, isStrKeyB]⟩
  | some o =>
    cases o with
    | sig s => exact ⟨[], by simp, by simp⟩
    | grp g => exact ⟨_, rfl, by simp [keyObjOk, isStrKeyB]⟩

/-- The allocation counter never decreases across `check_exists`. -/
theorem check_exists_ctr_le (sig : ADSignal) (obj : ADInstance) (ctr : Nat) :
    ctr ≤ (sig.check_exists obj ctr).2.2 := by
  simp only [ADSignal.check_exists]
  cases hk : lookupKey obj.ad_signals (ADKey.str (sig.resolve obj)) with
  | none => exact Nat.le_succ ctr
  | some o =>
    cases o with
    | sig s => exact Nat.le_refl ctr
    | grp g => exact Nat.le_succ ctr

/-- The id bound is monotone in the counter. -/
theorem cacheBoundB_mono (obj : ADInstance) (c c' : Nat) (hcc : c ≤ c')
    (h : cacheBoundB obj c = true) : cacheBoundB obj c' = true := by
  simp only [cacheBoundB, List.all_eq_true] at h ⊢
  intro p hp
  have hv := h p hp
  simp only [decide_eq_true_eq] at hv ⊢
  omega

/-- `check_exists` preserves the id bound and returns an object whose id is
below the new counter. -/
theorem check_exists_bound (sig : ADSignal) (obj : ADInstance) (ctr : Nat)
    (hbd : cacheBoundB obj ctr = true) :
    cacheBoundB (sig.check_exists obj ctr).2.1 (sig.check_exists obj ctr).2.2 = true
    ∧ (sig.check_exists obj ctr).1.sid < (sig.check_exists obj ctr).2.2 := by
  have hsucc := cacheBoundB_mono obj ctr (ctr + 1) (Nat.le_succ ctr) hbd
  simp only [ADSignal.check_exists]
  cases hk : lookupKey obj.ad_signals (ADKey.str (sig.resolve obj)) with
  | none =>
    refine ⟨?_, by simp⟩
    simp only [cacheBoundB, List.all_append, Bool.and_eq_true, List.all_eq_true,
      decide_eq_true_eq] at hsucc ⊢
    refine ⟨?_, by simp [ADObj.idOf]⟩
    exact fun a hab => hsucc a hab
  | some o =>
    cases o with
    | sig s =>
      refine ⟨hbd, ?_⟩
      have hv := lookupKey_all_of_some obj.ad_signals hbd _ _ hk
      simpa [ADObj.idOf] using hv
    | grp g =>
      refine ⟨?_, by simp⟩
      simp only [cacheBoundB, List.all_append, Bool.and_eq_true, List.all_eq_true,
        decide_eq_true_eq] at hsucc ⊢
      refine ⟨?_, by simp [ADObj.idOf]⟩
      exact fun a hab => hsucc a hab

/-- On a well-formed cache `check_exists` keeps the cache well-formed and
leaves its result stored under the resolved pv key. -/
theorem check_exists_wf (sig : ADSignal) (obj : ADInstance) (ctr : Nat)
    (hwf : adWF obj = true) :
    adWF (sig.check_exists obj ctr).2.1 = true
    ∧ lookupKey (sig.check_exists obj ctr).2.1.ad_signals (ADKey.str (sig.resolve obj))
        = some (ADObj.sig (sig.check_exists obj ctr).1) := by
  simp only [ADSignal.check_exists]
  cases hk : lookupKey obj.ad_signals (ADKey.str (sig.resolve obj)) with
  | none =>
    refine ⟨?_, ?_⟩
    · simp only [adWF, List.all_append, Bool.and_eq_true, List.all_eq_true] at hwf ⊢
      refine ⟨?_, by simp [keyObjOk]⟩
      exact fun a hab => hwf a hab
    · exact lookupKey_append_singleton _ _ _ hk
  | some o =>
    cases o with
    | sig s => exact ⟨hwf, hk⟩
    | grp g =>
      have hko := lookupKey_all_of_some obj.ad_signals hwf _ _ hk
      simp [keyObjOk] at hko

/-- A cache hit makes `check_exists` a pure lookup. -/
theorem check_exists_hit (sig : ADSignal) (obj : ADInstance) (ctr : Nat) (s : EpicsSig)
    (h : lookupKey obj.ad_signals (ADKey.str (sig.resolve obj)) = some (ADObj.sig s)) :
    sig.check_exists obj ctr = (s, obj, ctr) := by
  simp [ADSignal.check_exists, h]

/-- Template resolution depends only on the instance context field. -/
theorem resolve_congr (sig : ADSignal) (o1 o2 : ADInstance)
    (h : o2.chanCtx = o1.chanCtx) : sig.resolve o2 = sig.resolve o1 := by
  simp [ADSignal.resolve, h]

/-- Member resolution preserves the instance context fields. -/
theorem resolveProps_ctx (props : List ADSignal) (obj : ADInstance) (ctr : Nat) :
    (resolveProps props obj ctr).2.1.chanCtx = obj.chanCtx
    ∧ (resolveProps props obj ctr).2.1.name = obj.name
    ∧ (resolveProps props obj ctr).2.1.prefixVal = obj.prefixVal := by
  induction props generalizing obj ctr with
  | nil => exact ⟨rfl, rfl, rfl⟩
  | cons p rest ih =>
    have hce := check_exists_ctx p obj ctr
    have hr := ih (p.check_exists obj ctr).2.1 (p.check_exists obj ctr).2.2
    exact ⟨hr.1.trans hce.1, hr.2.1.trans hce.2.1, hr.2.2.trans hce.2.2⟩

/-- Member resolution only appends string-keyed signal entries to the
cache. -/
theorem resolveProps_extends (props : List ADSignal) (obj : ADInstance) (ctr : Nat) :
    ∃ tail, (resolveProps props obj ctr).2.1.ad_signals = obj.ad_signals ++ tail
      ∧ tail.all (fun p => keyObjOk p && isStrKeyB p.1) = true := by
  induction props generalizing obj ctr with
  | nil => exact ⟨[], by rw [List.append_nil]; rfl, rfl⟩
  | cons p rest ih =>
    obtain ⟨t1, ht1, ha1⟩ := check_exists_extends p obj ctr
    obtain ⟨t2, ht2, ha2⟩ := ih (p.check_exists obj ctr).2.1 (p.check_exists obj ctr).2.2
    refine ⟨t1 ++ t2, ?_, ?_⟩
    · have hunf : (resolveProps (p :: rest) obj ctr).2.1
          = (resolveProps rest (p.check_exists obj ctr).2.1
              (p.check_exists obj ctr).2.2).2.1 := rfl
      rw [hunf, ht2, ht1, List.append_assoc]
    · simp [List.all_append, ha1, ha2]

/-- The allocation counter never decreases across member resolution. -/
theorem resolveProps_ctr_le (props : List ADSignal) (obj : ADInstance) (ctr : Nat) :
    ctr ≤ (resolveProps props obj ctr).2.2 := by
  induction props generalizing obj ctr with
  | nil => exact Nat.le_refl ctr
  | cons p rest ih =>
    exact Nat.le_trans (check_exists_ctr_le p obj ctr)
      (ih (p.check_exists obj ctr).2.1 (p.check_exists obj ctr).2.2)

/-- Member resolution preserves the id bound. -/
theorem resolveProps_bound (props : List ADSignal) (obj : ADInstance) (ctr : Nat)
    (hbd : cacheBoundB obj ctr = true) :
    cacheBoundB (resolveProps props obj ctr).2.1 (resolveProps props obj ctr).2.2
      = true := by
  induction props generalizing obj ctr with
  | nil => exact hbd
  | cons p rest ih =>
    exact ih (p.check_exists obj ctr).2.1 (p.check_exists obj ctr).2.2
      (check_exists_bound p obj ctr hbd).1

/-- Member resolution preserves cache well-formedness. -/
theorem resolveProps_wf (props : List ADSignal) (obj : ADInstance) (ctr : Nat)
    (hwf : adWF obj = true) : adWF (resolveProps props obj ctr).2.1 = true := by
  induction props generalizing obj ctr with
  | nil => exact hwf
  | cons p rest ih =>
    exact ih (p.check_exists obj ctr).2.1 (p.check_exists obj ctr).2.2
      (check_exists_wf p obj ctr hwf).1

/-- After one full member resolution, re-resolving the same members from any
extension of the resulting cache with the same instance context is a pure
sequence of cache hits: it returns the same member signals and changes
nothing. -/
theorem resolveProps_idem (props : List ADSignal) :
    ∀ (obj : ADInstance) (ctr : Nat), adWF obj = true →
      ∀ (obj2 : ADInstance) (c2 : Nat), obj2.chanCtx = obj.chanCtx →
        (∃ tail, obj2.ad_signals
            = (resolveProps props obj ctr).2.1.ad_signals ++ tail) →
        resolveProps props obj2 c2 = ((resolveProps props obj ctr).1, obj2, c2) := by
  induction props with
  | nil =>
    intro obj ctr hwf obj2 c2 hctx hext
    rfl
  | cons p rest ih =>
    intro obj ctr hwf obj2 c2 hctx hext
    obtain ⟨tail2, htail2⟩ := hext
    have hwfr := check_exists_wf p obj ctr hwf
    obtain ⟨t1, ht1, ha1⟩ := resolveProps_extends rest (p.check_exists obj ctr).2.1
      (p.check_exists obj ctr).2.2
    have hres2 : p.resolve obj2 = p.resolve obj := resolve_congr p obj obj2 hctx
    have hextAll : obj2.ad_signals
        = (p.check_exists obj ctr).2.1.ad_signals ++ (t1 ++ tail2) := by
      rw [htail2]
      have hunf : (resolveProps (p :: rest) obj ctr).2.1
          = (resolveProps rest (p.check_exists obj ctr).2.1
              (p.check_exists obj ctr).2.2).2.1 := rfl
      rw [hunf, ht1, List.append_assoc]
    have hlk2 : lookupKey obj2.ad_signals (ADKey.str (p.resolve obj2))
        = some (ADObj.sig (p.check_exists obj ctr).1) := by
      rw [hres2, hextAll, lookupKey_append, hwfr.2]
    have hce2 := check_exists_hit p obj2 c2 _ hlk2
    have hctx1 := check_exists_ctx p obj ctr
    have ihr := ih (p.check_exists obj ctr).2.1 (p.check_exists obj ctr).2.2 hwfr.1
      obj2 c2 (hctx.trans hctx1.1.symm)
      ⟨tail2, by rw [htail2]; rfl⟩
    calc resolveProps (p :: rest) obj2 c2
        = ((p.check_exists obj ctr).1 :: (resolveProps rest obj2 c2).1,
           (resolveProps rest obj2 c2).2.1, (resolveProps rest obj2 c2).2.2) := by
          rw [show resolveProps (p :: rest) obj2 c2
              = ((p.check_exists obj2 c2).1
                  :: (resolveProps rest (p.check_exists obj2 c2).2.1
                      (p.check_exists obj2 c2).2.2).1,
                 (resolveProps rest (p.check_exists obj2 c2).2.1
                    (p.check_exists obj2 c2).2.2).2.1,
                 (resolveProps rest (p.check_exists obj2 c2).2.1
                    (p.check_exists obj2 c2).2.2).2.2) from rfl,
             hce2]
      _ = ((resolveProps (p :: rest) obj ctr).1, obj2, c2) := by rw [ihr]; rfl

/-- A group access on a state where member resolution is a pure hit and the
group key is cached returns the cached group unchanged. -/
theorem access_hit (props : List ADSignal) (obj2 : ADInstance) (c2 : Nat)
    (sigs : List EpicsSig) (g : SigGroup)
    (hres : resolveProps props obj2 c2 = (sigs, obj2, c2))
    (hlk : lookupKey obj2.ad_signals (ADKey.tup (sigs.map (fun s => s.pvname)))
        = some (ADObj.grp g)) :
    ADSignalGroup.access props obj2 c2 = (g, obj2, c2) := by
  have h1 : (resolveProps props obj2 c2).1 = sigs := congrArg (fun t => t.1) hres
  have h2 : (resolveProps props obj2 c2).2.1 = obj2 := congrArg (fun t => t.2.1) hres
  have h3 : (resolveProps props obj2 c2).2.2 = c2 := congrArg (fun t => t.2.2) hres
  simp only [ADSignalGroup.access]
  rw [h1, h2, h3, hlk]

/-- The id of the group a group access returns lies below the returned
counter, given the id bound on entry. -/
theorem access_bound (props : List ADSignal) (obj : ADInstance) (ctr : Nat)
    (hbd : cacheBoundB obj ctr = true) :
    (ADSignalGroup.access props obj ctr).1.gid
      < (ADSignalGroup.access props obj ctr).2.2 := by
  have hrb := resolveProps_bound props obj ctr hbd
  simp only [ADSignalGroup.access]
  cases hk : lookupKey (resolveProps props obj ctr).2.1.ad_signals
      (ADKey.tup ((resolveProps props obj ctr).1.map (fun s => s.pvname))) with
  | none => simp
  | some o =>
    cases o with
    | sig s => simp
    | grp g =>
      have hv := lookupKey_all_of_some _ hrb _ _ hk
      simpa [ADObj.idOf] using hv

/-- Consecutive group accesses return the identical cached group object:
the second access changes neither the cache nor the counter and yields the
first access's group. -/
theorem access_idem (props : List ADSignal) (obj : ADInstance) (ctr : Nat)
    (hwf : adWF obj = true) :
    ADSignalGroup.access props (ADSignalGroup.access props obj ctr).2.1
        (ADSignalGroup.access props obj ctr).2.2
      = ADSignalGroup.access props obj ctr := by
  have hwfR := resolveProps_wf props obj ctr hwf
  have hctxR := resolveProps_ctx props obj ctr
  cases hk : lookupKey (resolveProps props obj ctr).2.1.ad_signals
      (ADKey.tup ((resolveProps props obj ctr).1.map (fun s => s.pvname))) with
  | some o =>
    cases o with
    | sig s =>
      have hko := lookupKey_all_of_some _ hwfR _ _ hk
      simp [keyObjOk] at hko
    | grp g =>
      have hA : ADSignalGroup.access props obj ctr
          = (g, (resolveProps props obj ctr).2.1, (resolveProps props obj ctr).2.2) := by
        simp only [ADSignalGroup.access]
        rw [hk]
      have hidem := resolveProps_idem props obj ctr hwf
        (resolveProps props obj ctr).2.1 (resolveProps props obj ctr).2.2
        hctxR.1 ⟨[], (List.append_nil _).symm⟩
      rw [hA]
      exact access_hit props _ _ _ g hidem hk
  | none =>
    have hA : ADSignalGroup.access props obj ctr
        = ({ gid := (resolveProps props obj ctr).2.2
           , members := (resolveProps props obj ctr).1.map (fun s => s.sid) },
           { (resolveProps props obj ctr).2.1 with
             ad_signals := (resolveProps props obj ctr).2.1.ad_signals
               ++ [(ADKey.tup ((resolveProps props obj ctr).1.map (fun s => s.pvname)),
                    ADObj.grp
                      { gid := (resolveProps props obj ctr).2.2
                      , members := (resolveProps props obj ctr).1.map (fun s => s.sid) })] },
           (resolveProps props obj ctr).2.2 + 1) := by
      simp only [ADSignalGroup.access]
      rw [hk]
    rw [hA]
    have hctx2 : ({ (resolveProps props obj ctr).2.1 with
        ad_signals := (resolveProps props obj ctr).2.1.ad_signals
          ++ [(ADKey.tup ((resolveProps props obj ctr).1.map (fun s => s.pvname)),
               ADObj.grp
                 { gid := (resolveProps props obj ctr).2.2
                 , members := (resolveProps props obj ctr).1.map (fun s => s.sid) })] }
          : ADInstance).chanCtx = obj.chanCtx := hctxR.1
    have hidem := resolveProps_idem props obj ctr hwf
      { (resolveProps props obj ctr).2.1 with
        ad_signals := (resolveProps props obj ctr).2.1.ad_signals
          ++ [(ADKey.tup ((resolveProps props obj ctr).1.map (fun s => s.pvname)),
               ADObj.grp
                 { gid := (resolveProps props obj ctr).2.2
                 , members := (resolveProps props obj ctr).1.map (fun s => s.sid) })] }
      ((resolveProps props obj ctr).2.2 + 1) hctx2
      ⟨[(ADKey.tup ((resolveProps props obj ctr).1.map (fun s => s.pvname)),
         ADObj.grp
           { gid := (resolveProps props obj ctr).2.2
           , members := (resolveProps props obj ctr).1.map (fun s => s.sid) })], rfl⟩
    have hlk2 : lookupKey
        ({ (resolveProps props obj ctr).2.1 with
           ad_signals := (resolveProps props obj ctr).2.1.ad_signals
             ++ [(ADKey.tup ((resolveProps props obj ctr).1.map (fun s => s.pvname)),
                  ADObj.grp
                    { gid := (resolveProps props obj ctr).2.2
                    , members := (resolveProps props obj ctr).1.map (fun s => s.sid) })] }
          : ADInstance).ad_signals
        (ADKey.tup ((resolveProps props obj ctr).1.map (fun s => s.pvname)))
        = some (ADObj.grp
            { gid := (resolveProps props obj ctr).2.2
            , members := (resolveProps props obj ctr).1.map (fun s => s.sid) }) :=
      lookupKey_append_singleton _ _ _ hk
    exact access_hit props _ _ _ _ hidem hlk2

/-- A group access whose member-key tuple is not cached creates and stores
a fresh group carrying the post-resolution counter as its id. -/
theorem access_fresh (props : List ADSignal) (obj2 : ADInstance) (c2 : Nat)
    (hlk : lookupKey (resolveProps props obj2 c2).2.1.ad_signals
        (ADKey.tup ((resolveProps props obj2 c2).1.map (fun s => s.pvname))) = none) :
    ADSignalGroup.access props obj2 c2
      = ({ gid := (resolveProps props obj2 c2).2.2
         , members := (resolveProps props obj2 c2).1.map (fun s => s.sid) },
         { (resolveProps props obj2 c2).2.1 with
           ad_signals := (resolveProps props obj2 c2).2.1.ad_signals
             ++ [(ADKey.tup ((resolveProps props obj2 c2).1.map (fun s => s.pvname)),
                  ADObj.grp
                    { gid := (resolveProps props obj2 c2).2.2
                    , members := (resolveProps props obj2 c2).1.map (fun s => s.sid) })] },
         (resolveProps props obj2 c2).2.2 + 1) := by
  simp only [ADSignalGroup.access]
  rw [hlk]

/-- C7: on a well-formed instance, two consecutive accesses of a group of
member descriptors return the identical cached group object (the second
access changes neither the cache nor the allocation counter): the cache key
is the ordered tuple of member identifiers, which resolve identically when
the instance context is unchanged.  If the instance context is then changed
so that the member-identifier tuple differs from every cached group key, the
next access creates a distinct group object. -/
theorem group_cache_key_stability (props : List ADSignal) (obj : ADInstance)
    (ctr : Nat) (ctx2 : String) (hwf : adWF obj = true)
    (hbd : cacheBoundB obj ctr = true) :
    ADSignalGroup.access props (ADSignalGroup.access props obj ctr).2.1
        (ADSignalGroup.access props obj ctr).2.2
      = ADSignalGroup.access props obj ctr
    ∧ (lookupKey (ADSignalGroup.access props obj ctr).2.1.ad_signals
          (ADKey.tup (accessKey props
            (chgCtx (ADSignalGroup.access props obj ctr).2.1 ctx2)
            (ADSignalGroup.access props obj ctr).2.2)) = none →
        (ADSignalGroup.access props
            (chgCtx (ADSignalGroup.access props obj ctr).2.1 ctx2)
            (ADSignalGroup.access props obj ctr).2.2).1
          ≠ (ADSignalGroup.access props obj ctr).1) := by
  refine ⟨access_idem props obj ctr hwf, ?_⟩
  intro hkey2
  obtain ⟨t, ht, hstrt⟩ := resolveProps_extends props
    (chgCtx (ADSignalGroup.access props obj ctr).2.1 ctx2)
    (ADSignalGroup.access props obj ctr).2.2
  have hb : lookupKey
      (chgCtx (ADSignalGroup.access props obj ctr).2.1 ctx2).ad_signals
      (ADKey.tup ((resolveProps props
          (chgCtx (ADSignalGroup.access props obj ctr).2.1 ctx2)
          (ADSignalGroup.access props obj ctr).2.2).1.map (fun s => s.pvname)))
      = none := hkey2
  have hlk2 : lookupKey
      (resolveProps props (chgCtx (ADSignalGroup.access props obj ctr).2.1 ctx2)
        (ADSignalGroup.access props obj ctr).2.2).2.1.ad_signals
      (ADKey.tup ((resolveProps props
          (chgCtx (ADSignalGroup.access props obj ctr).2.1 ctx2)
          (ADSignalGroup.access props obj ctr).2.2).1.map (fun s => s.pvname)))
      = none := by
    rw [ht, lookupKey_append, hb,
      lookupKey_tup_of_str_all t _ hstrt]
  have hA2 := access_fresh props
    (chgCtx (ADSignalGroup.access props obj ctr).2.1 ctx2)
    (ADSignalGroup.access props obj ctr).2.2 hlk2
  have hge : (ADSignalGroup.access props obj ctr).2.2
      ≤ (resolveProps props (chgCtx (ADSignalGroup.access props obj ctr).2.1 ctx2)
          (ADSignalGroup.access props obj ctr).2.2).2.2 :=
    resolveProps_ctr_le props _ _
  have hlt : (ADSignalGroup.access props obj ctr).1.gid
      < (ADSignalGroup.access props obj ctr).2.2 := access_bound props obj ctr hbd
  intro heq
  have hgid : (resolveProps props (chgCtx (ADSignalGroup.access props obj ctr).2.1 ctx2)
      (ADSignalGroup.access props obj ctr).2.2).2.2
      = (ADSignalGroup.access props obj ctr).1.gid := by
    have hg := congrArg SigGroup.gid heq
    rw [hA2] at hg
    exact hg
  omega

/-- Witness for C7: a two-member group on a fresh instance; the second
access with instance context changed from "3" to "4" resolves a different
member identifier tuple and yields a distinct group. -/
theorem group_cache_key_stability_witness :
    adWF demoAdObj = true
    ∧ cacheBoundB demoAdObj 0 = true
    ∧ lookupKey (ADSignalGroup.access [demoAdCh, demoAdEnable] demoAdObj 0).2.1.ad_signals
        (ADKey.tup (accessKey [demoAdCh, demoAdEnable]
          (chgCtx (ADSignalGroup.access [demoAdCh, demoAdEnable] demoAdObj 0).2.1 "4")
          (ADSignalGroup.access [demoAdCh, demoAdEnable] demoAdObj 0).2.2)) = none
    ∧ (ADSignalGroup.access [demoAdCh, demoAdEnable]
          (chgCtx (ADSignalGroup.access [demoAdCh, demoAdEnable] demoAdObj 0).2.1 "4")
          (ADSignalGroup.access [demoAdCh, demoAdEnable] demoAdObj 0).2.2).1
        ≠ (ADSignalGroup.access [demoAdCh, demoAdEnable] demoAdObj 0).1 := by
  refine ⟨by decide, by decide, by decide, ?_⟩
  exact (group_cache_key_stability [demoAdCh, demoAdEnable] demoAdObj 0 "4"
    (by decide) (by decide)).2 (by decide)

end Ophyd
